import Mathlib

/-!
Verification of the killer-game backend (`app.py`).

The file shallowly embeds the core of the backend:

* the text normalizer `normalize` (Unicode NFD decomposition, removal of
  combining marks, lowercasing, whitespace collapsing);
* the identity resolver (`find_killer_key` and the legacy-list scan of
  `get_mission`);
* the game-state operations (`get_mission`, `mission_done`, `submit_guess`,
  `leaderboard`, `admin_reset`) over a per-player progress map.

Python dictionaries are modelled as association lists in insertion order
(updating an existing key keeps its position, a new key is appended at the
end, exactly as CPython dicts behave).  The Unicode data consulted by
`unicodedata.normalize("NFD", _)`, `unicodedata.category`, `str.lower` and
`str.split` is embedded as finite tables covering the Latin-1 repertoire the
application works with (French player names); characters outside the tables
decompose to themselves, which is the identity behaviour of the Python
functions outside the covered repertoire.
-/

set_option maxRecDepth 4096

namespace KillerGame

/-! ## Unicode fragment -/

/-- First-match lookup in a character-keyed table (Python `dict` lookup). -/
def tableLookup {β : Type} : List (Char × β) → Char → Option β
  | [], _ => none
  | (k, v) :: rest, c => if k = c then some v else tableLookup rest c

/-- Canonical (NFD) decompositions of the precomposed Latin-1 letters:
each maps to its base letter followed by a combining mark, as
`unicodedata.normalize("NFD", _)` does. -/
def nfdTable : List (Char × List Char) :=
  [ ('À', ['A', '̀']), ('Á', ['A', '́']), ('Â', ['A', '̂']),
    ('Ã', ['A', '̃']), ('Ä', ['A', '̈']), ('Å', ['A', '̊']),
    ('Ç', ['C', '̧']),
    ('È', ['E', '̀']), ('É', ['E', '́']), ('Ê', ['E', '̂']),
    ('Ë', ['E', '̈']),
    ('Ì', ['I', '̀']), ('Í', ['I', '́']), ('Î', ['I', '̂']),
    ('Ï', ['I', '̈']),
    ('Ñ', ['N', '̃']),
    ('Ò', ['O', '̀']), ('Ó', ['O', '́']), ('Ô', ['O', '̂']),
    ('Õ', ['O', '̃']), ('Ö', ['O', '̈']),
    ('Ù', ['U', '̀']), ('Ú', ['U', '́']), ('Û', ['U', '̂']),
    ('Ü', ['U', '̈']),
    ('Ý', ['Y', '́']),
    ('à', ['a', '̀']), ('á', ['a', '́']), ('â', ['a', '̂']),
    ('ã', ['a', '̃']), ('ä', ['a', '̈']), ('å', ['a', '̊']),
    ('ç', ['c', '̧']),
    ('è', ['e', '̀']), ('é', ['e', '́']), ('ê', ['e', '̂']),
    ('ë', ['e', '̈']),
    ('ì', ['i', '̀']), ('í', ['i', '́']), ('î', ['i', '̂']),
    ('ï', ['i', '̈']),
    ('ñ', ['n', '̃']),
    ('ò', ['o', '̀']), ('ó', ['o', '́']), ('ô', ['o', '̂']),
    ('õ', ['o', '̃']), ('ö', ['o', '̈']),
    ('ù', ['u', '̀']), ('ú', ['u', '́']), ('û', ['u', '̂']),
    ('ü', ['u', '̈']),
    ('ý', ['y', '́']), ('ÿ', ['y', '̈']) ]

/-- NFD decomposition of one character; characters without an entry are
their own decomposition. -/
def nfdChar (c : Char) : List Char := (tableLookup nfdTable c).getD [c]

/-- `unicodedata.category c == "Mn"` for the combining-diacritics block
(U+0300 to U+036F), which contains every mark produced by `nfdTable`. -/
def isMn (c : Char) : Bool := decide (0x300 ≤ c.toNat ∧ c.toNat ≤ 0x36F)

/-- The lowercasing map of `str.lower` on the ASCII and Latin-1 letters. -/
def lowerTable : List (Char × Char) :=
  [ ('A', 'a'), ('B', 'b'), ('C', 'c'), ('D', 'd'), ('E', 'e'), ('F', 'f'),
    ('G', 'g'), ('H', 'h'), ('I', 'i'), ('J', 'j'), ('K', 'k'), ('L', 'l'),
    ('M', 'm'), ('N', 'n'), ('O', 'o'), ('P', 'p'), ('Q', 'q'), ('R', 'r'),
    ('S', 's'), ('T', 't'), ('U', 'u'), ('V', 'v'), ('W', 'w'), ('X', 'x'),
    ('Y', 'y'), ('Z', 'z'),
    ('À', 'à'), ('Á', 'á'), ('Â', 'â'), ('Ã', 'ã'), ('Ä', 'ä'), ('Å', 'å'),
    ('Æ', 'æ'), ('Ç', 'ç'), ('È', 'è'), ('É', 'é'), ('Ê', 'ê'), ('Ë', 'ë'),
    ('Ì', 'ì'), ('Í', 'í'), ('Î', 'î'), ('Ï', 'ï'), ('Ð', 'ð'), ('Ñ', 'ñ'),
    ('Ò', 'ò'), ('Ó', 'ó'), ('Ô', 'ô'), ('Õ', 'õ'), ('Ö', 'ö'), ('Ø', 'ø'),
    ('Ù', 'ù'), ('Ú', 'ú'), ('Û', 'û'), ('Ü', 'ü'), ('Ý', 'ý'), ('Þ', 'þ') ]

/-- `str.lower`, character by character. -/
def pyLowerChar (c : Char) : Char := (tableLookup lowerTable c).getD c

/-- The characters `str.split()` and `str.strip()` treat as whitespace
(the ASCII whitespace control characters plus NEL and NBSP). -/
def pySpaceChars : List Char :=
  [' ', '\t', '\n', '\x0b', '\x0c', '\x0d',
   '\x1c', '\x1d', '\x1e', '\x1f', '\u0085', '\u00A0']

/-- Whether `str.split()` treats `c` as whitespace. -/
def pyIsSpace (c : Char) : Bool := pySpaceChars.contains c

/-- Concatenation of the per-character decompositions. -/
def flatMapChars (f : Char → List Char) : List Char → List Char
  | [] => []
  | c :: rest => f c ++ flatMapChars f rest

/-- Worker of `str.split()`: `acc` is the current word, reversed. -/
def splitWsAux : List Char → List Char → List (List Char)
  | acc, [] => if acc.isEmpty then [] else [acc.reverse]
  | acc, c :: rest =>
    if pyIsSpace c then
      if acc.isEmpty then splitWsAux [] rest
      else acc.reverse :: splitWsAux [] rest
    else splitWsAux (c :: acc) rest

/-- `str.split()`: the maximal whitespace-free words, in order. -/
def splitWs (l : List Char) : List (List Char) := splitWsAux [] l

/-- `" ".join(words)`. -/
def joinWords : List (List Char) → List Char
  | [] => []
  | [w] => w
  | w :: ws => w ++ ' ' :: joinWords ws

/-- The character-level pipeline of `normalize`: NFD-decompose, drop the
combining marks, lowercase, and re-join the whitespace-separated words with
single spaces.  (The `.strip()` of the source is a no-op before a bare
`.split()`, which already ignores leading and trailing whitespace.) -/
def normChars (l : List Char) : List Char :=
  joinWords (splitWs (((flatMapChars nfdChar l).filter (fun c => !(isMn c))).map pyLowerChar))

/-- `normalize` from `app.py`: canonicalizes a display name for comparison
(accents, case, whitespace).  Falsy input (the empty string) yields the
empty string. -/
def normalize (text : String) : String :=
  if text = "" then "" else String.mk (normChars text.data)

/-- `str.strip()` over the character list. -/
def trimChars (l : List Char) : List Char :=
  ((l.dropWhile pyIsSpace).reverse.dropWhile pyIsSpace).reverse

/-- `s.strip()`. -/
def pyTrim (s : String) : String := String.mk (trimChars s.data)

/-- Python `a or b` for an optional string `a`: `None` and `""` are falsy. -/
def pyOrStr (v : Option String) (fallback : String) : String :=
  match v with
  | some s => if s = "" then fallback else s
  | none => fallback

/-! ## Facts about the Unicode tables -/

/-- A successful table lookup comes from an entry of the table. -/
theorem tableLookup_mem {β : Type} :
    ∀ {l : List (Char × β)} {c : Char} {v : β},
      tableLookup l c = some v → (c, v) ∈ l := by
  intro l
  induction l with
  | nil => intro c v h; simp [tableLookup] at h
  | cons p rest ih =>
    intro c v h
    obtain ⟨k, w⟩ := p
    unfold tableLookup at h
    by_cases hk : k = c
    · rw [if_pos hk] at h
      cases h
      subst hk
      exact List.mem_cons_self _ _
    · rw [if_neg hk] at h
      exact List.mem_cons_of_mem _ (ih h)

/-- No character produced by an `nfdTable` decomposition decomposes again. -/
theorem nfdTable_values_fresh :
    ∀ p ∈ nfdTable, ∀ c ∈ p.2, tableLookup nfdTable c = none := by decide

/-- Lowercasing a character that does not decompose yields a character that
does not decompose, is not a combining mark, and is already lowercase. -/
theorem lowerTable_good :
    ∀ p ∈ lowerTable, tableLookup nfdTable p.1 = none →
      tableLookup nfdTable p.2 = none ∧ isMn p.2 = false ∧
        tableLookup lowerTable p.2 = none := by decide

/-- Characters that survive one pass of the normalizer: they do not
decompose, are not combining marks, and are fixed by lowercasing. -/
def goodChar (c : Char) : Prop :=
  tableLookup nfdTable c = none ∧ isMn c = false ∧ pyLowerChar c = c

theorem goodChar_space : goodChar ' ' :=
  ⟨by decide, by decide, by decide⟩

theorem nfdChar_fresh {d c : Char} (h : c ∈ nfdChar d) :
    tableLookup nfdTable c = none := by
  unfold nfdChar at h
  cases hd : tableLookup nfdTable d with
  | none =>
    rw [hd] at h
    simp at h
    subst h
    exact hd
  | some l =>
    rw [hd] at h
    simp at h
    exact nfdTable_values_fresh (d, l) (tableLookup_mem hd) c h

theorem flatMapChars_fresh :
    ∀ {l : List Char} {c : Char}, c ∈ flatMapChars nfdChar l →
      tableLookup nfdTable c = none := by
  intro l
  induction l with
  | nil => intro c h; simp [flatMapChars] at h
  | cons d rest ih =>
    intro c h
    rcases List.mem_append.1 h with h | h
    · exact nfdChar_fresh h
    · exact ih h

theorem pyLowerChar_good {c : Char} (h1 : tableLookup nfdTable c = none)
    (h2 : isMn c = false) : goodChar (pyLowerChar c) := by
  cases hl : tableLookup lowerTable c with
  | none =>
    have hfix : pyLowerChar c = c := by unfold pyLowerChar; rw [hl]; rfl
    rw [hfix]
    exact ⟨h1, h2, hfix⟩
  | some r =>
    have hg := lowerTable_good (c, r) (tableLookup_mem hl) h1
    have hval : pyLowerChar c = r := by unfold pyLowerChar; rw [hl]; rfl
    rw [hval]
    exact ⟨hg.1, hg.2.1, by unfold pyLowerChar; rw [hg.2.2]; rfl⟩

/-- Every character surviving the decompose-strip-lower pipeline is good. -/
theorem normPipeline_good {l : List Char} :
    ∀ c ∈ ((flatMapChars nfdChar l).filter (fun c => !(isMn c))).map pyLowerChar,
      goodChar c := by
  intro c hc
  rcases List.mem_map.1 hc with ⟨b, hb, rfl⟩
  rcases List.mem_filter.1 hb with ⟨hbmem, hbp⟩
  exact pyLowerChar_good (flatMapChars_fresh hbmem) (by simpa using hbp)

/-! ## Facts about the whitespace splitter -/

/-- Soundness of the splitter: every emitted word is nonempty and its
characters are non-whitespace characters drawn from the input. -/
theorem splitWsAux_words (P : Char → Prop) :
    ∀ (l acc : List Char),
      (∀ c ∈ acc, pyIsSpace c = false ∧ P c) →
      (∀ c ∈ l, P c) →
      ∀ w ∈ splitWsAux acc l, w ≠ [] ∧ ∀ c ∈ w, pyIsSpace c = false ∧ P c := by
  intro l
  induction l with
  | nil =>
    intro acc hacc _ w hw
    unfold splitWsAux at hw
    by_cases he : acc.isEmpty
    · rw [if_pos he] at hw
      simp at hw
    · rw [if_neg he] at hw
      rcases List.mem_singleton.1 hw with rfl
      refine ⟨?_, ?_⟩
      · simp only [ne_eq, List.reverse_eq_nil_iff]
        simpa [List.isEmpty_iff] using he
      · intro c hc
        exact hacc c (List.mem_reverse.1 hc)
  | cons d rest ih =>
    intro acc hacc hl w hw
    unfold splitWsAux at hw
    by_cases hs : pyIsSpace d = true
    · rw [if_pos (by simpa using hs)] at hw
      by_cases he : acc.isEmpty
      · rw [if_pos he] at hw
        exact ih [] (by simp) (fun c hc => hl c (List.mem_cons_of_mem _ hc)) w hw
      · rw [if_neg he] at hw
        rcases List.mem_cons.1 hw with rfl | hw
        · refine ⟨?_, ?_⟩
          · simp only [ne_eq, List.reverse_eq_nil_iff]
            simpa [List.isEmpty_iff] using he
          · intro c hc
            exact hacc c (List.mem_reverse.1 hc)
        · exact ih [] (by simp) (fun c hc => hl c (List.mem_cons_of_mem _ hc)) w hw
    · rw [if_neg (by simpa using hs)] at hw
      refine ih (d :: acc) ?_ (fun c hc => hl c (List.mem_cons_of_mem _ hc)) w hw
      intro c hc
      rcases List.mem_cons.1 hc with rfl | hc
      · exact ⟨by simpa using hs, hl c (List.mem_cons_self _ _)⟩
      · exact hacc c hc

/-- Feeding a whitespace-free word into the splitter only extends the
current accumulator. -/
theorem splitWsAux_feed :
    ∀ (w l acc : List Char), (∀ c ∈ w, pyIsSpace c = false) →
      splitWsAux acc (w ++ l) = splitWsAux (w.reverse ++ acc) l := by
  intro w
  induction w with
  | nil => intro l acc _; simp
  | cons c w ih =>
    intro l acc hw
    have hc : pyIsSpace c = false := hw c (List.mem_cons_self _ _)
    have step : splitWsAux acc (c :: (w ++ l)) = splitWsAux (c :: acc) (w ++ l) := by
      simp only [splitWsAux]
      rw [if_neg (by simp [hc])]
    rw [List.cons_append, step,
        ih l (c :: acc) (fun x hx => hw x (List.mem_cons_of_mem _ hx))]
    congr 1
    simp

/-- Splitting the single-space join of nonempty whitespace-free words
recovers exactly those words. -/
theorem splitWs_joinWords :
    ∀ ws : List (List Char),
      (∀ w ∈ ws, w ≠ [] ∧ ∀ c ∈ w, pyIsSpace c = false) →
      splitWs (joinWords ws) = ws := by
  intro ws
  induction ws with
  | nil => intro _; rfl
  | cons w ws ih =>
    intro h
    obtain ⟨hw0, hwc⟩ := h w (List.mem_cons_self _ _)
    cases ws with
    | nil =>
      have h1 := splitWsAux_feed w [] [] hwc
      rw [List.append_nil, List.append_nil] at h1
      show splitWs (joinWords [w]) = [w]
      unfold joinWords splitWs
      rw [h1]
      unfold splitWsAux
      rw [if_neg (by simpa [List.isEmpty_iff] using hw0)]
      simp
    | cons w2 ws2 =>
      show splitWs (w ++ ' ' :: joinWords (w2 :: ws2)) = w :: w2 :: ws2
      unfold splitWs
      rw [splitWsAux_feed w (' ' :: joinWords (w2 :: ws2)) [] hwc, List.append_nil]
      unfold splitWsAux
      rw [if_pos (by decide)]
      rw [if_neg (by simpa [List.isEmpty_iff] using hw0)]
      simp only [List.reverse_reverse]
      congr 1
      exact ih (fun x hx => h x (List.mem_cons_of_mem _ hx))

/-! ## Idempotence of the normalizer -/

theorem flatMapChars_congr_id :
    ∀ {l : List Char}, (∀ c ∈ l, nfdChar c = [c]) → flatMapChars nfdChar l = l := by
  intro l
  induction l with
  | nil => intro _; rfl
  | cons c rest ih =>
    intro h
    show nfdChar c ++ flatMapChars nfdChar rest = c :: rest
    rw [h c (List.mem_cons_self _ _), ih (fun x hx => h x (List.mem_cons_of_mem _ hx))]
    rfl

theorem filter_id_of :
    ∀ {l : List Char} {p : Char → Bool}, (∀ c ∈ l, p c = true) → l.filter p = l := by
  intro l p
  induction l with
  | nil => intro _; rfl
  | cons c rest ih =>
    intro h
    rw [List.filter_cons, if_pos (h c (List.mem_cons_self _ _))]
    rw [ih (fun x hx => h x (List.mem_cons_of_mem _ hx))]

theorem map_id_of :
    ∀ {l : List Char} {f : Char → Char}, (∀ c ∈ l, f c = c) → l.map f = l := by
  intro l f
  induction l with
  | nil => intro _; rfl
  | cons c rest ih =>
    intro h
    rw [List.map_cons, h c (List.mem_cons_self _ _)]
    rw [ih (fun x hx => h x (List.mem_cons_of_mem _ hx))]

theorem joinWords_mem (P : Char → Prop) (hsp : P ' ') :
    ∀ ws : List (List Char), (∀ w ∈ ws, ∀ c ∈ w, P c) →
      ∀ c ∈ joinWords ws, P c := by
  intro ws
  induction ws with
  | nil => intro _ c hc; simp [joinWords] at hc
  | cons w ws ih =>
    intro h c hc
    cases ws with
    | nil => exact h w (List.mem_cons_self _ _) c hc
    | cons w2 ws2 =>
      rcases List.mem_append.1 hc with hc | hc
      · exact h w (List.mem_cons_self _ _) c hc
      · rcases List.mem_cons.1 hc with rfl | hc
        · exact hsp
        · exact ih (fun x hx => h x (List.mem_cons_of_mem _ hx)) c hc

/-- The normalizer fixes the join of any list of nonempty words made of
good non-whitespace characters. -/
theorem normChars_of_words (ws : List (List Char))
    (h : ∀ w ∈ ws, w ≠ [] ∧ ∀ c ∈ w, pyIsSpace c = false ∧ goodChar c) :
    normChars (joinWords ws) = joinWords ws := by
  have hout : ∀ c ∈ joinWords ws, goodChar c :=
    joinWords_mem goodChar goodChar_space ws (fun w hw c hc => ((h w hw).2 c hc).2)
  unfold normChars
  rw [flatMapChars_congr_id (fun c hc => by
    have := (hout c hc).1
    unfold nfdChar
    rw [this]
    rfl)]
  rw [filter_id_of (fun c hc => by
    have := (hout c hc).2.1
    simp [this])]
  rw [map_id_of (fun c hc => (hout c hc).2.2)]
  rw [splitWs_joinWords ws (fun w hw => ⟨(h w hw).1, fun c hc => ((h w hw).2 c hc).1⟩)]

theorem normChars_idem (l : List Char) : normChars (normChars l) = normChars l := by
  have hwords :=
    splitWsAux_words goodChar
      (((flatMapChars nfdChar l).filter (fun c => !(isMn c))).map pyLowerChar)
      [] (by simp) normPipeline_good
  exact normChars_of_words _ (fun w hw => hwords w hw)

/-! ## Data model -/

/-- The record written wholesale by `submit_guess`. -/
structure GuessRecord where
  killer_id : String
  killer_display : String
  mission : String
deriving DecidableEq

/-- Per-player mutable progress record (one value of the `state.json`
mapping). -/
structure PlayerState where
  mission_done : Bool
  guess : Option GuessRecord
  points : Int
  discovered_by_target : Bool
deriving DecidableEq

/-- The guess dict written by `submit_guess`: the accused id is used
verbatim for both the id and the display. -/
def guessOf (accused_id guessed_mission : String) : GuessRecord :=
  { killer_id := accused_id, killer_display := accused_id,
    mission := guessed_mission }

/-- `default_player_state()` from `app.py`. -/
def default_player_state : PlayerState :=
  { mission_done := false, guess := none, points := 0,
    discovered_by_target := false }

/-- A roster entry; `p.get("id")` may be absent. -/
structure Player where
  id : Option String
deriving DecidableEq

/-- The progress map (`state.json`): a Python dict from player id to
`PlayerState`, modelled as an association list in insertion order. -/
abbrev GameState : Type := List (String × PlayerState)

/-- Python dict lookup `state.get(k)`. -/
def stateGet : GameState → String → Option PlayerState
  | [], _ => none
  | (k0, v0) :: rest, k => if k0 = k then some v0 else stateGet rest k

/-- Python dict assignment `state[k] = v`: an existing key keeps its
position, a new key is appended at the end. -/
def stateSet : GameState → String → PlayerState → GameState
  | [], k, v => [(k, v)]
  | (k0, v0) :: rest, k, v =>
    if k0 = k then (k, v) :: rest else (k0, v0) :: stateSet rest k v

/-- `ensure_player_state` from `app.py`: create the entry with defaults if
absent and return it (state first, returned entry second). -/
def ensure_player_state (state : GameState) (player_id : String) :
    GameState × PlayerState :=
  match stateGet state player_id with
  | some v => (state, v)
  | none => (state ++ [(player_id, default_player_state)], default_player_state)

/-- The body of the `build_default_state` loop: `pid = p.get("id")`, and
only truthy ids (present and non-empty) receive an entry. -/
def buildStep (state : GameState) (p : Player) : GameState :=
  match p.id with
  | some pid => if pid = "" then state else stateSet state pid default_player_state
  | none => state

/-- `build_default_state` from `app.py`: one default entry per roster
player with a truthy id. -/
def build_default_state (players : List Player) : GameState :=
  players.foldl buildStep []

/-- One assignment record of the keyed (dict) shape; `target` and
`mission` may be absent. -/
structure AssignRecord where
  target : Option String
  mission : Option String
deriving DecidableEq

/-- One record of the legacy list shape; all fields may be absent. -/
structure LegacyRecord where
  killer : Option String
  target : Option String
  mission : Option String
deriving DecidableEq

/-- The loaded `assignments.json`, as classified by `load_assignments`:
a dict, a list, or some other JSON value (`"unknown"` format). -/
inductive AssignmentsRaw where
  | dict (entries : List (String × AssignRecord))
  | list (records : List LegacyRecord)
  | other
deriving DecidableEq

/-- Python dict key lookup on the keyed assignment table. -/
def dictGet : List (String × AssignRecord) → String → Option AssignRecord
  | [], _ => none
  | (k0, v0) :: rest, k => if k0 = k then some v0 else dictGet rest k

/-- The scanning loop of `find_killer_key`, with the normalized input
precomputed (`wanted`). -/
def findKeyLoop (wanted : String) : List (String × AssignRecord) → Option String
  | [] => none
  | (k, _) :: rest => if normalize k = wanted then some k else findKeyLoop wanted rest

/-- `find_killer_key` from `app.py`: first key of the dict whose
normalization equals the normalized input. -/
def find_killer_key (assignments_dict : List (String × AssignRecord))
    (player_display : String) : Option String :=
  findKeyLoop (normalize player_display) assignments_dict

/-! ## Responses of the HTTP handlers -/

/-- The success payload of `GET /api/mission`. -/
structure MissionPayload where
  player_id : String
  player_display : String
  mission_text : String
  target_display : String
  mission_done : Bool
deriving DecidableEq

/-- Outcome of `GET /api/mission`.  `keyError` is the unhandled Python
`KeyError` raised by `a["killer"]` when a matched legacy record lacks the
`killer` field. -/
inductive MissionResp where
  | ok (payload : MissionPayload)
  | missingParam
  | notFound
  | invalidFormat
  | keyError
deriving DecidableEq

/-- HTTP status attached to each `GET /api/mission` outcome. -/
def missionStatus : MissionResp → Nat
  | .ok _ => 200
  | .missingParam => 400
  | .notFound => 404
  | .invalidFormat => 500
  | .keyError => 500

/-- The legacy-list fallback loop inside `get_mission`. -/
def legacyLoop (state : GameState) (norm_input : String) :
    List LegacyRecord → GameState × MissionResp
  | [] => (state, .notFound)
  | a :: rest =>
    if normalize (a.killer.getD "") = norm_input then
      match a.killer with
      | some killer_name =>
        let es := ensure_player_state state killer_name
        (es.1, .ok { player_id := killer_name, player_display := killer_name,
                     mission_text := a.mission.getD "—",
                     target_display := a.target.getD "—",
                     mission_done := es.2.mission_done })
      | none => (state, .keyError)
    else legacyLoop state norm_input rest

/-- `get_mission` from `app.py` (`GET /api/mission?player=...`).  The
roster is loaded but unused by the handler; the returned state is the one
persisted to `state.json` (unchanged when no save happens). -/
def get_mission (players : List Player) (state : GameState)
    (assignments : AssignmentsRaw) (player_query : Option String) :
    GameState × MissionResp :=
  match player_query with
  | none => (state, .missingParam)
  | some player_display =>
    if player_display = "" then (state, .missingParam)
    else
      match assignments with
      | .dict entries =>
        match find_killer_key entries player_display with
        | none => (state, .notFound)
        | some killer_key =>
          if killer_key = "" then (state, .notFound)
          else
            let a := (dictGet entries killer_key).getD { target := none, mission := none }
            let es := ensure_player_state state killer_key
            (es.1, .ok { player_id := killer_key, player_display := killer_key,
                         mission_text := a.mission.getD "—",
                         target_display := a.target.getD "—",
                         mission_done := es.2.mission_done })
      | .list records => legacyLoop state (normalize player_display) records
      | .other => (state, .invalidFormat)

/-- Outcome of `POST /api/mission_done`. -/
inductive DoneResp where
  | ok
  | missingPlayerId
deriving DecidableEq

/-- HTTP status attached to each `POST /api/mission_done` outcome. -/
def doneStatus : DoneResp → Nat
  | .ok => 200
  | .missingPlayerId => 400

/-- `mission_done` from `app.py` (`POST /api/mission_done`): the body may
carry the player under `player_id` or `player_display`. -/
def mission_done (state : GameState)
    (player_id_field player_display_field : Option String) :
    GameState × DoneResp :=
  let player_id := pyTrim (pyOrStr player_id_field (pyOrStr player_display_field ""))
  if player_id = "" then (state, .missingPlayerId)
  else
    let es := ensure_player_state state player_id
    (stateSet es.1 player_id { es.2 with mission_done := true }, .ok)

/-- Outcome of `POST /api/guess`. -/
inductive GuessResp where
  | ok
  | missingPlayerId
  | missingAccusedId
  | missingGuessedMission
deriving DecidableEq

/-- HTTP status attached to each `POST /api/guess` outcome. -/
def guessStatus : GuessResp → Nat
  | .ok => 200
  | .missingPlayerId => 400
  | .missingAccusedId => 400
  | .missingGuessedMission => 400

/-- `submit_guess` from `app.py` (`POST /api/guess`). -/
def submit_guess (state : GameState)
    (player_id_field player_display_field accused_id_field
     accused_display_field guessed_mission_field : Option String) :
    GameState × GuessResp :=
  let player_id := pyTrim (pyOrStr player_id_field (pyOrStr player_display_field ""))
  let accused_id := pyTrim (pyOrStr accused_id_field (pyOrStr accused_display_field ""))
  let guessed_mission := pyTrim (pyOrStr guessed_mission_field "")
  if player_id = "" then (state, .missingPlayerId)
  else if accused_id = "" then (state, .missingAccusedId)
  else if guessed_mission = "" then (state, .missingGuessedMission)
  else
    let es := ensure_player_state state player_id
    (stateSet es.1 player_id
      { es.2 with
        guess := some { killer_id := accused_id, killer_display := accused_id,
                        mission := guessed_mission } }, .ok)

/-- One row of the leaderboard response. -/
structure Row where
  display : String
  points : Int
  mission_done : Bool
  discovered_by_target : Bool
  found_killer : Bool
  guess_killer_display : Option String
  guess_mission : Option String
deriving DecidableEq

/-- The row built by the `leaderboard` loop body for roster id `name`:
missing progress entries render from an all-default record, and the guess
fields come from the stored guess when present. -/
def rowFor (state : GameState) (name : String) : Row :=
  let s := (stateGet state name).getD default_player_state
  { display := name, points := s.points, mission_done := s.mission_done,
    discovered_by_target := s.discovered_by_target,
    found_killer := s.guess.isSome,
    guess_killer_display := s.guess.map GuessRecord.killer_display,
    guess_mission := s.guess.map GuessRecord.mission }

/-- The `leaderboard` loop over the roster: entries with a falsy id
(absent or empty) are skipped. -/
def lbRows (state : GameState) : List Player → List Row
  | [] => []
  | p :: rest =>
    match p.id with
    | some name =>
      if name = "" then lbRows state rest
      else rowFor state name :: lbRows state rest
    | none => lbRows state rest

/-- `leaderboard` from `app.py` (`GET /api/leaderboard`): a pure read; the
persisted progress map is returned unchanged. -/
def leaderboard (players : List Player) (state : GameState) :
    GameState × List Row :=
  (state, lbRows state players)

/-- Outcome of `POST /api/admin/reset`. -/
inductive ResetResp where
  | ok (players : Nat)
  | badPassword
deriving DecidableEq

/-- HTTP status attached to each `POST /api/admin/reset` outcome. -/
def resetStatus : ResetResp → Nat
  | .ok _ => 200
  | .badPassword => 403

/-- The configured admin secret (`ADMIN_PASSWORD` in `app.py`). -/
def ADMIN_PASSWORD : String := "Veiga"

/-- `admin_reset` from `app.py` (`POST /api/admin/reset`): the supplied
password is stripped, then compared to the secret; on success the whole
progress map is rebuilt from the roster. -/
def admin_reset (players : List Player) (state : GameState)
    (password_field : Option String) : GameState × ResetResp :=
  let password := pyTrim (pyOrStr password_field "")
  if password ≠ ADMIN_PASSWORD then (state, .badPassword)
  else
    let new_state := build_default_state players
    (new_state, .ok new_state.length)

/-! ## Lemmas about the progress map -/

theorem stateGet_stateSet_self (st : GameState) (k : String) (v : PlayerState) :
    stateGet (stateSet st k v) k = some v := by
  induction st with
  | nil => simp [stateSet, stateGet]
  | cons p rest ih =>
    obtain ⟨k0, v0⟩ := p
    by_cases h : k0 = k
    · simp [stateSet, h, stateGet]
    · simp [stateSet, h, stateGet, ih]

theorem stateGet_stateSet_other (st : GameState) (k k2 : String)
    (v : PlayerState) (h : k2 ≠ k) :
    stateGet (stateSet st k v) k2 = stateGet st k2 := by
  induction st with
  | nil => simp [stateSet, stateGet, Ne.symm h]
  | cons p rest ih =>
    obtain ⟨k0, v0⟩ := p
    by_cases h0 : k0 = k
    · subst h0
      simp [stateSet, stateGet, Ne.symm h]
    · simp [stateSet, h0, stateGet, ih]

theorem stateSet_self (st : GameState) (k : String) (v : PlayerState)
    (h : stateGet st k = some v) : stateSet st k v = st := by
  induction st with
  | nil => simp [stateGet] at h
  | cons p rest ih =>
    obtain ⟨k0, v0⟩ := p
    by_cases h0 : k0 = k
    · subst h0
      simp [stateGet] at h
      simp [stateSet, h]
    · simp [stateGet, h0] at h
      simp [stateSet, h0, ih h]

theorem stateGet_append_self (st : GameState) (k : String) (v : PlayerState)
    (h : stateGet st k = none) : stateGet (st ++ [(k, v)]) k = some v := by
  induction st with
  | nil => simp [stateGet]
  | cons p rest ih =>
    obtain ⟨k0, v0⟩ := p
    by_cases h0 : k0 = k
    · simp [stateGet, h0] at h
    · simp [stateGet, h0] at h ⊢
      exact ih h

theorem stateGet_append_other (st : GameState) (k k2 : String)
    (v : PlayerState) (h : k2 ≠ k) :
    stateGet (st ++ [(k, v)]) k2 = stateGet st k2 := by
  induction st with
  | nil => simp [stateGet, Ne.symm h]
  | cons p rest ih =>
    obtain ⟨k0, v0⟩ := p
    by_cases h0 : k0 = k2
    · simp [stateGet, h0]
    · simp [stateGet, h0, ih]

theorem stateSet_append (st : GameState) (k : String) (v w : PlayerState)
    (h : stateGet st k = none) :
    stateSet (st ++ [(k, v)]) k w = st ++ [(k, w)] := by
  induction st with
  | nil => simp [stateSet]
  | cons p rest ih =>
    obtain ⟨k0, v0⟩ := p
    by_cases h0 : k0 = k
    · simp [stateGet, h0] at h
    · simp [stateGet, h0] at h
      simp [stateSet, h0, ih h]

theorem ensure_snd (st : GameState) (k : String) :
    (ensure_player_state st k).2 = (stateGet st k).getD default_player_state := by
  unfold ensure_player_state
  cases stateGet st k <;> rfl

theorem ensure_fst_eq (st : GameState) (k : String) :
    (ensure_player_state st k).1
      = match stateGet st k with
        | some _ => st
        | none => st ++ [(k, default_player_state)] := by
  unfold ensure_player_state
  cases stateGet st k <;> rfl

/-! ## Lemmas about the resolver -/

theorem findKeyLoop_eq_find? (wanted : String) :
    ∀ entries : List (String × AssignRecord),
      findKeyLoop wanted entries
        = (entries.map Prod.fst).find? (fun k => decide (normalize k = wanted)) := by
  intro entries
  induction entries with
  | nil => rfl
  | cons p rest ih =>
    obtain ⟨k, v⟩ := p
    by_cases h : normalize k = wanted
    · simp [findKeyLoop, h, List.find?]
    · simp [findKeyLoop, h, List.find?, ih]

theorem findKeyLoop_eq_none (wanted : String) :
    ∀ entries : List (String × AssignRecord),
      (∀ k ∈ entries.map Prod.fst, normalize k ≠ wanted) →
      findKeyLoop wanted entries = none := by
  intro entries
  induction entries with
  | nil => intro _; rfl
  | cons p rest ih =>
    intro h
    obtain ⟨k, v⟩ := p
    have hk : normalize k ≠ wanted := h k (by simp)
    simp only [findKeyLoop, if_neg hk]
    exact ih (fun x hx => h x (by simp; right; simpa using hx))

theorem legacyLoop_not_found (st : GameState) (wanted : String) :
    ∀ records : List LegacyRecord,
      (∀ r ∈ records, normalize (r.killer.getD "") ≠ wanted) →
      legacyLoop st wanted records = (st, .notFound) := by
  intro records
  induction records with
  | nil => intro _; rfl
  | cons a rest ih =>
    intro h
    have ha : normalize (a.killer.getD "") ≠ wanted := h a (List.mem_cons_self _ _)
    simp only [legacyLoop, if_neg ha]
    exact ih (fun x hx => h x (List.mem_cons_of_mem _ hx))

theorem legacyLoop_found (st : GameState) (wanted : String) :
    ∀ (records : List LegacyRecord) (r : LegacyRecord) (k : String),
      records.find? (fun a => decide (normalize (a.killer.getD "") = wanted)) = some r →
      r.killer = some k →
      legacyLoop st wanted records =
        ((ensure_player_state st k).1,
         .ok { player_id := k, player_display := k,
               mission_text := r.mission.getD "—",
               target_display := r.target.getD "—",
               mission_done := ((stateGet st k).getD default_player_state).mission_done }) := by
  intro records
  induction records with
  | nil => intro r k h; simp [List.find?] at h
  | cons a rest ih =>
    intro r k hfind hk
    by_cases h : normalize (a.killer.getD "") = wanted
    · have har : a = r := by
        simp [List.find?, h] at hfind
        exact hfind
      subst har
      have step : legacyLoop st wanted (a :: rest)
          = ((ensure_player_state st k).1,
             .ok { player_id := k, player_display := k,
                   mission_text := a.mission.getD "—",
                   target_display := a.target.getD "—",
                   mission_done := (ensure_player_state st k).2.mission_done }) := by
        simp only [legacyLoop, if_pos h]
        rw [hk]
      rw [step, ensure_snd]
    · simp [List.find?, h] at hfind
      simp only [legacyLoop, if_neg h]
      exact ih r k hfind hk

theorem get_mission_dict_found (players : List Player) (st : GameState)
    (entries : List (String × AssignRecord)) (inp killer_key : String)
    (hinp : inp ≠ "") (hfind : find_killer_key entries inp = some killer_key)
    (hkey : killer_key ≠ "") :
    get_mission players st (.dict entries) (some inp) =
      ((ensure_player_state st killer_key).1,
       .ok { player_id := killer_key, player_display := killer_key,
             mission_text := ((dictGet entries killer_key).getD
               { target := none, mission := none }).mission.getD "—",
             target_display := ((dictGet entries killer_key).getD
               { target := none, mission := none }).target.getD "—",
             mission_done :=
               ((stateGet st killer_key).getD default_player_state).mission_done }) := by
  simp only [get_mission, hfind, if_neg hinp, if_neg hkey]
  rw [ensure_snd]

/-! ## Lemmas about the rebuilt default state -/

theorem mem_stateSet :
    ∀ (st : GameState) (k : String) (v : PlayerState) (e : String × PlayerState),
      e ∈ stateSet st k v → e ∈ st ∨ e = (k, v) := by
  intro st k v
  induction st with
  | nil =>
    intro e he
    simp [stateSet] at he
    right
    exact he
  | cons p rest ih =>
    intro e he
    obtain ⟨k0, v0⟩ := p
    by_cases h0 : k0 = k
    · rw [stateSet, if_pos h0] at he
      rcases List.mem_cons.1 he with rfl | he
      · right; rfl
      · left; exact List.mem_cons_of_mem _ he
    · rw [stateSet, if_neg h0] at he
      rcases List.mem_cons.1 he with rfl | he
      · left; exact List.mem_cons_self _ _
      · rcases ih e he with he | he
        · left; exact List.mem_cons_of_mem _ he
        · right; exact he

theorem buildStep_id_none {p : Player} (h : p.id = none) (acc : GameState) :
    buildStep acc p = acc := by
  unfold buildStep
  rw [h]

theorem buildStep_id_empty {p : Player} {pid : String} (h : p.id = some pid)
    (hq : pid = "") (acc : GameState) : buildStep acc p = acc := by
  unfold buildStep
  rw [h]
  exact if_pos hq

theorem buildStep_id_some {p : Player} {pid : String} (h : p.id = some pid)
    (hq : pid ≠ "") (acc : GameState) :
    buildStep acc p = stateSet acc pid default_player_state := by
  unfold buildStep
  rw [h]
  exact if_neg hq

theorem buildFold_preserves :
    ∀ (rest : List Player) (acc : GameState) (pid : String),
      stateGet acc pid = some default_player_state →
      stateGet (List.foldl buildStep acc rest) pid = some default_player_state := by
  intro rest
  induction rest with
  | nil => intro acc pid h; exact h
  | cons p rest ih =>
    intro acc pid h
    rw [List.foldl_cons]
    apply ih
    cases hid : p.id with
    | none => rw [buildStep_id_none hid]; exact h
    | some q =>
      by_cases hq : q = ""
      · rw [buildStep_id_empty hid hq]; exact h
      · rw [buildStep_id_some hid hq]
        by_cases hpq : q = pid
        · subst hpq; rw [stateGet_stateSet_self]
        · rw [stateGet_stateSet_other _ _ _ _ (Ne.symm hpq)]; exact h

theorem buildFold_mem :
    ∀ (rest : List Player) (acc : GameState) (p : Player) (pid : String),
      p ∈ rest → p.id = some pid → pid ≠ "" →
      stateGet (List.foldl buildStep acc rest) pid = some default_player_state := by
  intro rest
  induction rest with
  | nil => intro acc p pid hmem; simp at hmem
  | cons q rest ih =>
    intro acc p pid hmem hid hne
    rcases List.mem_cons.1 hmem with rfl | hmem
    · rw [List.foldl_cons]
      apply buildFold_preserves
      rw [buildStep_id_some hid hne, stateGet_stateSet_self]
    · rw [List.foldl_cons]
      exact ih (buildStep acc q) p pid hmem hid hne

theorem buildFold_default :
    ∀ (rest : List Player) (acc : GameState),
      (∀ e ∈ acc, e.2 = default_player_state) →
      ∀ e ∈ List.foldl buildStep acc rest, e.2 = default_player_state := by
  intro rest
  induction rest with
  | nil => intro acc h; exact h
  | cons q rest ih =>
    intro acc h
    rw [List.foldl_cons]
    apply ih
    intro e he
    cases hid : q.id with
    | none => rw [buildStep_id_none hid] at he; exact h e he
    | some pid =>
      by_cases hq : pid = ""
      · rw [buildStep_id_empty hid hq] at he; exact h e he
      · rw [buildStep_id_some hid hq] at he
        rcases mem_stateSet acc pid default_player_state e he with he | he
        · exact h e he
        · rw [he]

/-! ## The claims -/

/-- Claim C8: normalization is idempotent — for every string `x`,
`normalize (normalize x) = normalize x`. -/
theorem C8_normalize_idempotent (x : String) :
    normalize (normalize x) = normalize x := by
  by_cases h : x = ""
  · subst h
    decide
  · have hx : normalize x = String.mk (normChars x.data) := by
      unfold normalize
      rw [if_neg h]
    rw [hx]
    by_cases h2 : String.mk (normChars x.data) = ""
    · rw [h2]
      decide
    · unfold normalize
      rw [if_neg h2]
      show String.mk (normChars (normChars x.data)) = String.mk (normChars x.data)
      rw [normChars_idem]

/-- Claim C9: `normalize` is the total pipeline that NFD-decomposes,
strips combining marks, lowercases, and collapses inner and outer
whitespace to single spaces; the empty string yields the empty string;
`normalize "Émilie" = normalize "emilie"` (both equal `"emilie"`) and
`normalize "  A   B " = "a b"`. -/
theorem C9_normalize_pipeline :
    (∀ x : String,
        normalize x = String.mk (joinWords (splitWs
          (((flatMapChars nfdChar x.data).filter (fun c => !(isMn c))).map pyLowerChar))))
    ∧ normalize "" = ""
    ∧ normalize "Émilie" = normalize "emilie"
    ∧ normalize "Émilie" = "emilie"
    ∧ normalize "  A   B " = "a b" := by
  refine ⟨?_, by decide, by decide, by decide, by decide⟩
  intro x
  by_cases h : x = ""
  · subst h
    decide
  · unfold normalize
    rw [if_neg h]
    rfl

/-- Claim C1: in the keyed shape the resolver returns the first key in
iteration order whose normalized form equals the normalized input; in the
legacy list shape it returns the `killer` string of the first record whose
normalized `killer` field equals the normalized input, together with the
mission and target of that record; resolving `"maxence"` or `" MAXENCE "`
against a table keyed by `"Maxence"` yields the key `"Maxence"`. -/
theorem C1_resolver_first_match :
    (∀ (entries : List (String × AssignRecord)) (inp : String),
        find_killer_key entries inp
          = (entries.map Prod.fst).find? (fun k => decide (normalize k = normalize inp)))
    ∧ (∀ (records : List LegacyRecord) (st : GameState) (inp : String)
         (r : LegacyRecord) (k : String),
        records.find? (fun a => decide (normalize (a.killer.getD "") = normalize inp))
            = some r →
        r.killer = some k →
        (legacyLoop st (normalize inp) records).2
          = MissionResp.ok
              { player_id := k, player_display := k,
                mission_text := r.mission.getD "—",
                target_display := r.target.getD "—",
                mission_done := ((stateGet st k).getD default_player_state).mission_done })
    ∧ find_killer_key [("Maxence", { target := some "Léa", mission := some "M1" })]
        "maxence" = some "Maxence"
    ∧ find_killer_key [("Maxence", { target := some "Léa", mission := some "M1" })]
        " MAXENCE " = some "Maxence" := by
  refine ⟨?_, ?_, by decide, by decide⟩
  · intro entries inp
    exact findKeyLoop_eq_find? (normalize inp) entries
  · intro records st inp r k hfind hk
    rw [legacyLoop_found st (normalize inp) records r k hfind hk]

/-- Concrete instance of C1 on the legacy shape from the spec:
resolving `"lea"` against `[{killer: "Léa", target: "Tom", mission: "M2"}]`
returns the key `"Léa"` and that record. -/
theorem C1_witness :
    (legacyLoop [] (normalize "lea")
        [{ killer := some "Léa", target := some "Tom", mission := some "M2" }]).2
      = MissionResp.ok
          { player_id := "Léa", player_display := "Léa",
            mission_text := "M2", target_display := "Tom", mission_done := false } := by
  have h := C1_resolver_first_match.2.1
      [{ killer := some "Léa", target := some "Tom", mission := some "M2" }]
      [] "lea"
      { killer := some "Léa", target := some "Tom", mission := some "M2" } "Léa"
      (by decide) rfl
  exact h

/-- Claim C2: with a nonempty player name, a keyed or list table with no
normalized match fails with PlayerNotFound (404), an unrecognized table
shape fails with InvalidAssignmentsFormat (500), and the two failure kinds
are distinct, with distinct HTTP statuses. -/
theorem C2_resolution_failures
    (players : List Player) (st : GameState) (inp : String) (hinp : inp ≠ "") :
    (∀ entries : List (String × AssignRecord),
        (∀ k ∈ entries.map Prod.fst, normalize k ≠ normalize inp) →
        get_mission players st (.dict entries) (some inp) = (st, .notFound))
    ∧ (∀ records : List LegacyRecord,
        (∀ r ∈ records, normalize (r.killer.getD "") ≠ normalize inp) →
        get_mission players st (.list records) (some inp) = (st, .notFound))
    ∧ get_mission players st .other (some inp) = (st, .invalidFormat)
    ∧ MissionResp.notFound ≠ MissionResp.invalidFormat
    ∧ missionStatus .notFound = 404
    ∧ missionStatus .invalidFormat = 500 := by
  refine ⟨?_, ?_, ?_, by decide, rfl, rfl⟩
  · intro entries h
    have hnone : find_killer_key entries inp = none := findKeyLoop_eq_none _ _ h
    simp only [get_mission, hnone, if_neg hinp]
  · intro records h
    simp only [get_mission, if_neg hinp]
    exact legacyLoop_not_found st (normalize inp) records h
  · simp only [get_mission, if_neg hinp]

/-- Concrete instance of C2: the name `"bob"` matches nothing in a
one-entry keyed table (404), and an unrecognized shape yields 500. -/
theorem C2_witness :
    get_mission [] [] (.dict [("Maxence", { target := some "L", mission := some "M" })])
        (some "bob") = ([], .notFound)
    ∧ get_mission [] [] .other (some "bob") = ([], .invalidFormat) := by
  have h := C2_resolution_failures [] [] "bob" (by decide)
  exact ⟨h.1 _ (by decide), h.2.2.1⟩

/-- Counterexample to claim C3 as stated: the handler strips the supplied
password before comparing, so the password `" Veiga "`, which does not
exactly match the secret, is accepted and the reset runs; and with the
correct password, a roster of three entries (one id-less, two sharing the
id `"A"`) yields the count 1, not the roster size 3. -/
theorem C3_counterexample :
    " Veiga " ≠ ADMIN_PASSWORD
    ∧ (admin_reset [{ id := some "A" }] [] (some " Veiga ")).2 = ResetResp.ok 1
    ∧ (admin_reset [{ id := none }, { id := some "A" }, { id := some "A" }] []
        (some "Veiga")).2 = ResetResp.ok 1 := by
  exact ⟨by decide, by decide, by decide⟩

/-- Claim C3 (amended): AdminReset fails with Unauthorized (403) and
leaves the progress map unchanged exactly when the stripped supplied
password differs from the configured secret; when the stripped password
equals the secret it replaces the whole progress map by the rebuilt one,
in which every roster player with a present non-empty id is mapped to the
default PlayerState, every entry holds the default, and the returned
count is the number of entries of that rebuilt map. -/
theorem C3_admin_reset (players : List Player) (st : GameState)
    (pw_field : Option String) :
    (pyTrim (pyOrStr pw_field "") ≠ ADMIN_PASSWORD →
       admin_reset players st pw_field = (st, .badPassword)
       ∧ resetStatus .badPassword = 403)
    ∧ (pyTrim (pyOrStr pw_field "") = ADMIN_PASSWORD →
       admin_reset players st pw_field
           = (build_default_state players, .ok (build_default_state players).length)
       ∧ (∀ p ∈ players, ∀ pid : String, p.id = some pid → pid ≠ "" →
            stateGet (build_default_state players) pid = some default_player_state)
       ∧ (∀ e ∈ build_default_state players, e.2 = default_player_state)) := by
  constructor
  · intro h
    refine ⟨?_, rfl⟩
    simp only [admin_reset, if_pos h]
  · intro h
    refine ⟨?_, ?_, ?_⟩
    · simp only [admin_reset, if_neg (not_not_intro h)]
    · intro p hp pid hpid hne
      exact buildFold_mem players [] p pid hp hpid hne
    · exact buildFold_default players [] (by simp)

/-- Concrete instance of C3 (amended): a wrong password leaves a nontrivial
progress map untouched with 403; the password `" Veiga "` strips to the
secret and rebuilds the map from the roster. -/
theorem C3_witness :
    admin_reset [{ id := some "A" }] [("B", default_player_state)] (some "nope")
      = ([("B", default_player_state)], ResetResp.badPassword)
    ∧ admin_reset [{ id := some "A" }] [("B", default_player_state)] (some " Veiga ")
      = (build_default_state [{ id := some "A" }],
         ResetResp.ok (build_default_state [{ id := some "A" }]).length) := by
  exact ⟨((C3_admin_reset [{ id := some "A" }] [("B", default_player_state)]
            (some "nope")).1 (by decide)).1,
         ((C3_admin_reset [{ id := some "A" }] [("B", default_player_state)]
            (some " Veiga ")).2 (by decide)).1⟩

/-- Counterexample to claim C4 as stated: with the keyed table whose only
key is the empty string and the input `" "`, resolution succeeds (the
resolver returns the key `""`), yet GetMission answers PlayerNotFound and
creates no progress entry. -/
theorem C4_counterexample :
    find_killer_key [("", { target := some "T", mission := some "M" })] " "
        = some ""
    ∧ get_mission [] [] (.dict [("", { target := some "T", mission := some "M" })])
        (some " ") = ([], MissionResp.notFound) := by
  exact ⟨by decide, by decide⟩

/-- Claim C4 (amended): with a nonempty input, on resolution to a
non-empty key in the keyed shape — or, in the list shape, to a first
matching record that carries its `killer` field — GetMission creates the
resolved key's PlayerState with defaults when absent and persists it,
leaves every other progress entry (and every field of an existing entry
for that key) unchanged, and returns the assignment's mission and target
texts ("—" when the field is absent) together with the current
mission_done flag; in the keyed shape a resolved empty-string key is
instead answered with PlayerNotFound. -/
theorem C4_get_mission_lazy_create (players : List Player) (st : GameState)
    (inp : String) (hinp : inp ≠ "") :
    (∀ (entries : List (String × AssignRecord)) (killer_key : String),
        find_killer_key entries inp = some killer_key → killer_key ≠ "" →
        get_mission players st (.dict entries) (some inp)
          = ((match stateGet st killer_key with
              | some _ => st
              | none => st ++ [(killer_key, default_player_state)]),
             MissionResp.ok
               { player_id := killer_key, player_display := killer_key,
                 mission_text := ((dictGet entries killer_key).getD
                   { target := none, mission := none }).mission.getD "—",
                 target_display := ((dictGet entries killer_key).getD
                   { target := none, mission := none }).target.getD "—",
                 mission_done :=
                   ((stateGet st killer_key).getD default_player_state).mission_done })
          ∧ (∀ k2 : String, k2 ≠ killer_key →
              stateGet (get_mission players st (.dict entries) (some inp)).1 k2
                = stateGet st k2))
    ∧ (∀ entries : List (String × AssignRecord),
        find_killer_key entries inp = some "" →
        get_mission players st (.dict entries) (some inp) = (st, .notFound))
    ∧ (∀ (records : List LegacyRecord) (r : LegacyRecord) (k : String),
        records.find? (fun a => decide (normalize (a.killer.getD "") = normalize inp))
            = some r →
        r.killer = some k →
        get_mission players st (.list records) (some inp)
          = ((match stateGet st k with
              | some _ => st
              | none => st ++ [(k, default_player_state)]),
             MissionResp.ok
               { player_id := k, player_display := k,
                 mission_text := r.mission.getD "—",
                 target_display := r.target.getD "—",
                 mission_done :=
                   ((stateGet st k).getD default_player_state).mission_done })
          ∧ (∀ k2 : String, k2 ≠ k →
              stateGet (get_mission players st (.list records) (some inp)).1 k2
                = stateGet st k2)) := by
  refine ⟨?_, ?_, ?_⟩
  · intro entries killer_key hfind hkey
    have heq := get_mission_dict_found players st entries inp killer_key hinp hfind hkey
    rw [ensure_fst_eq] at heq
    refine ⟨heq, ?_⟩
    intro k2 hk2
    rw [heq]
    cases hs : stateGet st killer_key with
    | some e => rfl
    | none => exact stateGet_append_other st killer_key k2 _ hk2
  · intro entries hfind
    simp only [get_mission, hfind, if_neg hinp]
    exact if_pos trivial
  · intro records r k hfind hk
    have heq := legacyLoop_found st (normalize inp) records r k hfind hk
    rw [ensure_fst_eq] at heq
    have hgm : get_mission players st (.list records) (some inp)
        = legacyLoop st (normalize inp) records := by
      simp only [get_mission, if_neg hinp]
    rw [hgm, heq]
    refine ⟨rfl, ?_⟩
    intro k2 hk2
    cases hs : stateGet st k with
    | some e => rfl
    | none => exact stateGet_append_other st k k2 _ hk2

/-- Concrete instance of C4 (amended): fetching the mission for
`"maxence"` against the keyed table creates the entry for `"Maxence"`
(persisted) and returns its mission, target and mission_done flag. -/
theorem C4_witness :
    get_mission [] [("Zoe", default_player_state)]
        (.dict [("Maxence", { target := some "Léa", mission := some "M1" })])
        (some "maxence")
      = ([("Zoe", default_player_state), ("Maxence", default_player_state)],
         MissionResp.ok
           { player_id := "Maxence", player_display := "Maxence",
             mission_text := "M1", target_display := "Léa",
             mission_done := false }) := by
  have h := ((C4_get_mission_lazy_create [] [("Zoe", default_player_state)]
      "maxence" (by decide)).1
      [("Maxence", { target := some "Léa", mission := some "M1" })]
      "Maxence" (by decide) (by decide)).1
  simpa using h

/-- Characterization of a successful `mission_done`: the trimmed effective
player id is used verbatim as the key; an existing entry has only its
`mission_done` field set, an absent one is appended with defaults plus
`mission_done = true`. -/
theorem mission_done_state_eq (st : GameState) (f1 f2 : Option String)
    (h : pyTrim (pyOrStr f1 (pyOrStr f2 "")) ≠ "") :
    mission_done st f1 f2
      = ((match stateGet st (pyTrim (pyOrStr f1 (pyOrStr f2 ""))) with
          | some e => stateSet st (pyTrim (pyOrStr f1 (pyOrStr f2 "")))
              { e with mission_done := true }
          | none => st ++ [(pyTrim (pyOrStr f1 (pyOrStr f2 "")),
              { default_player_state with mission_done := true })]),
         DoneResp.ok) := by
  simp only [mission_done, if_neg h]
  cases hs : stateGet st (pyTrim (pyOrStr f1 (pyOrStr f2 ""))) with
  | some e => simp only [ensure_player_state, hs]
  | none =>
    simp only [ensure_player_state, hs]
    rw [stateSet_append st _ default_player_state _ hs]

/-- Claim C5: with a trimmed nonempty player id, `mission_done` sets that
key's `mission_done` flag to true, changes no other field of that
PlayerState and no other progress entry, and is idempotent (the second
call returns ok again and leaves the state exactly as after the first);
an id that trims to the empty string fails with MissingField (400). -/
theorem C5_mission_done_idempotent (st : GameState)
    (pid_f disp_f : Option String) :
    (pyTrim (pyOrStr pid_f (pyOrStr disp_f "")) = "" →
        mission_done st pid_f disp_f = (st, .missingPlayerId)
        ∧ doneStatus .missingPlayerId = 400)
    ∧ ∀ pid : String, pid = pyTrim (pyOrStr pid_f (pyOrStr disp_f "")) → pid ≠ "" →
        (mission_done st pid_f disp_f).2 = DoneResp.ok
        ∧ stateGet (mission_done st pid_f disp_f).1 pid
            = some { (stateGet st pid).getD default_player_state with
                     mission_done := true }
        ∧ (∀ k2 : String, k2 ≠ pid →
            stateGet (mission_done st pid_f disp_f).1 k2 = stateGet st k2)
        ∧ mission_done (mission_done st pid_f disp_f).1 pid_f disp_f
            = ((mission_done st pid_f disp_f).1, DoneResp.ok) := by
  constructor
  · intro h
    refine ⟨?_, rfl⟩
    simp only [mission_done, if_pos h]
  · intro pid hpid h
    have hne : pyTrim (pyOrStr pid_f (pyOrStr disp_f "")) ≠ "" := by
      rw [← hpid]; exact h
    have heq := mission_done_state_eq st pid_f disp_f hne
    rw [← hpid] at heq
    cases hs : stateGet st pid with
    | some e =>
      rw [hs] at heq
      refine ⟨by rw [heq], ?_, ?_, ?_⟩
      · rw [heq]
        show stateGet (stateSet st pid { e with mission_done := true }) pid = _
        rw [stateGet_stateSet_self]
        rfl
      · intro k2 hk2
        rw [heq]
        exact stateGet_stateSet_other st pid k2 _ hk2
      · rw [heq]
        have hs2 : stateGet (stateSet st pid { e with mission_done := true }) pid
            = some { e with mission_done := true } := stateGet_stateSet_self st pid _
        have h2 := mission_done_state_eq
          (stateSet st pid { e with mission_done := true }) pid_f disp_f hne
        rw [← hpid] at h2
        rw [hs2] at h2
        rw [h2]
        show (stateSet (stateSet st pid { e with mission_done := true }) pid
            { e with mission_done := true }, DoneResp.ok) = _
        rw [stateSet_self _ _ _ hs2]
    | none =>
      rw [hs] at heq
      refine ⟨by rw [heq], ?_, ?_, ?_⟩
      · rw [heq]
        show stateGet (st ++ [(pid, { default_player_state with mission_done := true })])
            pid = _
        rw [stateGet_append_self st pid _ hs]
        rfl
      · intro k2 hk2
        rw [heq]
        exact stateGet_append_other st pid k2 _ hk2
      · rw [heq]
        have hs2 : stateGet
            (st ++ [(pid, { default_player_state with mission_done := true })]) pid
            = some { default_player_state with mission_done := true } :=
          stateGet_append_self st pid _ hs
        have h2 := mission_done_state_eq
          (st ++ [(pid, { default_player_state with mission_done := true })])
          pid_f disp_f hne
        rw [← hpid] at h2
        rw [hs2] at h2
        rw [h2]
        show (stateSet (st ++ [(pid, { default_player_state with mission_done := true })])
            pid { default_player_state with mission_done := true }, DoneResp.ok) = _
        rw [stateSet_self _ _ _ hs2]

/-- Concrete instance of C5: marking `" A "` done creates the entry under
the trimmed key `"A"` with `mission_done = true`, and a second call is a
no-op on the state. -/
theorem C5_witness :
    (mission_done [] (some " A ") none).2 = DoneResp.ok
    ∧ stateGet (mission_done [] (some " A ") none).1 "A"
        = some { default_player_state with mission_done := true }
    ∧ mission_done (mission_done [] (some " A ") none).1 (some " A ") none
        = ((mission_done [] (some " A ") none).1, DoneResp.ok) := by
  have h := (C5_mission_done_idempotent [] (some " A ") none).2 "A"
      (by decide) (by decide)
  exact ⟨h.1, h.2.1, h.2.2.2⟩

/-- Characterization of a successful `submit_guess`: the trimmed effective
player id keys the entry, whose `guess` field is overwritten wholesale
with the trimmed accused id (used verbatim for both id and display) and
the trimmed guessed mission. -/
theorem submit_guess_state_eq (st : GameState)
    (f1 f2 f3 f4 f5 : Option String)
    (h1 : pyTrim (pyOrStr f1 (pyOrStr f2 "")) ≠ "")
    (h2 : pyTrim (pyOrStr f3 (pyOrStr f4 "")) ≠ "")
    (h3 : pyTrim (pyOrStr f5 "") ≠ "") :
    submit_guess st f1 f2 f3 f4 f5
      = ((match stateGet st (pyTrim (pyOrStr f1 (pyOrStr f2 ""))) with
          | some e => stateSet st (pyTrim (pyOrStr f1 (pyOrStr f2 "")))
              { e with guess := some (guessOf (pyTrim (pyOrStr f3 (pyOrStr f4 "")))
                  (pyTrim (pyOrStr f5 ""))) }
          | none => st ++ [(pyTrim (pyOrStr f1 (pyOrStr f2 "")),
              { default_player_state with
                guess := some (guessOf (pyTrim (pyOrStr f3 (pyOrStr f4 "")))
                  (pyTrim (pyOrStr f5 ""))) })]),
         GuessResp.ok) := by
  simp only [submit_guess, if_neg h1, if_neg h2, if_neg h3]
  cases hs : stateGet st (pyTrim (pyOrStr f1 (pyOrStr f2 ""))) with
  | some e =>
    simp only [ensure_player_state, hs]
    rfl
  | none =>
    simp only [ensure_player_state, hs]
    rw [stateSet_append st _ default_player_state _ hs]
    rfl

/-- `submit_guess_state_eq` with the three trimmed effective inputs given
abstract names. -/
theorem submit_guess_spec (st : GameState) (f1 f2 f3 f4 f5 : Option String)
    (pid acc gm : String)
    (hpid : pid = pyTrim (pyOrStr f1 (pyOrStr f2 "")))
    (hacc : acc = pyTrim (pyOrStr f3 (pyOrStr f4 "")))
    (hgm : gm = pyTrim (pyOrStr f5 ""))
    (h1 : pid ≠ "") (h2 : acc ≠ "") (h3 : gm ≠ "") :
    submit_guess st f1 f2 f3 f4 f5
      = ((match stateGet st pid with
          | some e => stateSet st pid { e with guess := some (guessOf acc gm) }
          | none => st ++ [(pid, { default_player_state with
              guess := some (guessOf acc gm) })]),
         GuessResp.ok) := by
  subst hpid
  subst hacc
  subst hgm
  exact submit_guess_state_eq st f1 f2 f3 f4 f5 h1 h2 h3

/-- Claim C6: with all three trimmed inputs nonempty, `submit_guess`
overwrites the submitting player's `guess` field wholesale with the
record built from the accused id (used verbatim for both id and display)
and the guessed mission; other fields and other entries are unchanged;
submitting guess A and then guess B leaves exactly guess B stored
(last-write-wins); any input that trims to the empty string fails with
MissingField (400). -/
theorem C6_submit_guess_overwrite (st : GameState)
    (pid_f disp_f acc_f accd_f gm_f : Option String) :
    (pyTrim (pyOrStr pid_f (pyOrStr disp_f "")) = "" →
        submit_guess st pid_f disp_f acc_f accd_f gm_f = (st, .missingPlayerId)
        ∧ guessStatus .missingPlayerId = 400)
    ∧ (pyTrim (pyOrStr pid_f (pyOrStr disp_f "")) ≠ "" →
       pyTrim (pyOrStr acc_f (pyOrStr accd_f "")) = "" →
        submit_guess st pid_f disp_f acc_f accd_f gm_f = (st, .missingAccusedId)
        ∧ guessStatus .missingAccusedId = 400)
    ∧ (pyTrim (pyOrStr pid_f (pyOrStr disp_f "")) ≠ "" →
       pyTrim (pyOrStr acc_f (pyOrStr accd_f "")) ≠ "" →
       pyTrim (pyOrStr gm_f "") = "" →
        submit_guess st pid_f disp_f acc_f accd_f gm_f = (st, .missingGuessedMission)
        ∧ guessStatus .missingGuessedMission = 400)
    ∧ ∀ pid acc gm : String,
        pid = pyTrim (pyOrStr pid_f (pyOrStr disp_f "")) →
        acc = pyTrim (pyOrStr acc_f (pyOrStr accd_f "")) →
        gm = pyTrim (pyOrStr gm_f "") →
        pid ≠ "" → acc ≠ "" → gm ≠ "" →
        (submit_guess st pid_f disp_f acc_f accd_f gm_f).2 = GuessResp.ok
        ∧ stateGet (submit_guess st pid_f disp_f acc_f accd_f gm_f).1 pid
            = some { (stateGet st pid).getD default_player_state with
                     guess := some (guessOf acc gm) }
        ∧ (∀ k2 : String, k2 ≠ pid →
            stateGet (submit_guess st pid_f disp_f acc_f accd_f gm_f).1 k2
              = stateGet st k2)
        ∧ ∀ (acc2_f accd2_f gm2_f : Option String) (acc2 gm2 : String),
            acc2 = pyTrim (pyOrStr acc2_f (pyOrStr accd2_f "")) →
            gm2 = pyTrim (pyOrStr gm2_f "") →
            acc2 ≠ "" → gm2 ≠ "" →
            stateGet (submit_guess
                (submit_guess st pid_f disp_f acc_f accd_f gm_f).1
                pid_f disp_f acc2_f accd2_f gm2_f).1 pid
              = some { (stateGet st pid).getD default_player_state with
                       guess := some (guessOf acc2 gm2) } := by
  refine ⟨?_, ?_, ?_, ?_⟩
  · intro h
    exact ⟨by simp only [submit_guess, if_pos h], rfl⟩
  · intro h1 h2
    exact ⟨by simp only [submit_guess, if_neg h1, if_pos h2], rfl⟩
  · intro h1 h2 h3
    exact ⟨by simp only [submit_guess, if_neg h1, if_neg h2, if_pos h3], rfl⟩
  · intro pid acc gm hpid hacc hgm h1 h2 h3
    have heq := submit_guess_spec st pid_f disp_f acc_f accd_f gm_f
        pid acc gm hpid hacc hgm h1 h2 h3
    cases hs : stateGet st pid with
    | some e =>
      simp only [hs] at heq
      refine ⟨by rw [heq], ?_, ?_, ?_⟩
      · rw [heq]
        show stateGet (stateSet st pid { e with guess := some (guessOf acc gm) }) pid = _
        rw [stateGet_stateSet_self]
        rfl
      · intro k2 hk2
        rw [heq]
        exact stateGet_stateSet_other st pid k2 _ hk2
      · intro acc2_f accd2_f gm2_f acc2 gm2 hacc2 hgm2 h2b h3b
        rw [heq]
        have heq2 := submit_guess_spec
            (stateSet st pid { e with guess := some (guessOf acc gm) })
            pid_f disp_f acc2_f accd2_f gm2_f pid acc2 gm2 hpid hacc2 hgm2 h1 h2b h3b
        simp only [stateGet_stateSet_self] at heq2
        rw [heq2]
        show stateGet (stateSet _ pid _) pid = _
        rw [stateGet_stateSet_self]
        rfl
    | none =>
      simp only [hs] at heq
      refine ⟨by rw [heq], ?_, ?_, ?_⟩
      · rw [heq]
        show stateGet (st ++ [(pid, { default_player_state with
            guess := some (guessOf acc gm) })]) pid = _
        rw [stateGet_append_self st pid _ hs]
        rfl
      · intro k2 hk2
        rw [heq]
        exact stateGet_append_other st pid k2 _ hk2
      · intro acc2_f accd2_f gm2_f acc2 gm2 hacc2 hgm2 h2b h3b
        rw [heq]
        have hs1 := stateGet_append_self st pid
          { default_player_state with guess := some (guessOf acc gm) } hs
        have heq2 := submit_guess_spec
            (st ++ [(pid, { default_player_state with guess := some (guessOf acc gm) })])
            pid_f disp_f acc2_f accd2_f gm2_f pid acc2 gm2 hpid hacc2 hgm2 h1 h2b h3b
        simp only [hs1] at heq2
        rw [heq2]
        show stateGet (stateSet _ pid _) pid = _
        rw [stateGet_stateSet_self]
        rfl

/-- Concrete instance of C6: player `"P"` accuses `" Q "` (stored trimmed
as `"Q"`), then accuses `"R"`; only the second guess remains. -/
theorem C6_witness :
    (submit_guess [] (some "P") none (some " Q ") none (some "m1")).2 = GuessResp.ok
    ∧ stateGet (submit_guess
          (submit_guess [] (some "P") none (some " Q ") none (some "m1")).1
          (some "P") none (some "R") none (some "m2")).1 "P"
        = some { default_player_state with guess := some (guessOf "R" "m2") } := by
  have h := (C6_submit_guess_overwrite [] (some "P") none (some " Q ") none
      (some "m1")).2.2.2 "P" "Q" "m1" (by decide) (by decide) (by decide)
      (by decide) (by decide) (by decide)
  exact ⟨h.1, h.2.2.2 (some "R") none (some "m2") "R" "m2"
      (by decide) (by decide) (by decide) (by decide)⟩

/-- Counterexample to claim C7 as stated: the roster entry with the empty
string as its id does have an id, yet the leaderboard emits no row for it
(the handler skips every falsy id). -/
theorem C7_counterexample :
    (({ id := some "" } : Player)).id.isSome = true
    ∧ (leaderboard [{ id := some "" }] []).2 = [] := by
  exact ⟨rfl, rfl⟩

/-- Claim C7 (amended): the leaderboard emits exactly one row per roster
player whose id is present and non-empty, in roster order, skipping
entries whose id is absent or empty; the progress map is returned
unmodified; a player absent from the progress map renders from the
all-empty default without that default being stored; each row carries the
display name, points, mission_done, discovered_by_target, found_killer
(true exactly when the stored guess is non-empty), and the guess display
and mission. -/
theorem C7_leaderboard_rows (players : List Player) (st : GameState) :
    (leaderboard players st).1 = st
    ∧ (leaderboard players st).2
        = (players.filterMap (fun p =>
             match p.id with
             | some name => if name = "" then none else some name
             | none => none)).map (rowFor st)
    ∧ (∀ name : String, stateGet st name = none →
        rowFor st name
          = { display := name, points := 0, mission_done := false,
              discovered_by_target := false, found_killer := false,
              guess_killer_display := none, guess_mission := none })
    ∧ (∀ name : String, (rowFor st name).found_killer
        = ((stateGet st name).getD default_player_state).guess.isSome)
    ∧ (∀ (name : String) (ps : PlayerState), stateGet st name = some ps →
        rowFor st name
          = { display := name, points := ps.points,
              mission_done := ps.mission_done,
              discovered_by_target := ps.discovered_by_target,
              found_killer := ps.guess.isSome,
              guess_killer_display := ps.guess.map GuessRecord.killer_display,
              guess_mission := ps.guess.map GuessRecord.mission }) := by
  refine ⟨rfl, ?_, ?_, ?_, ?_⟩
  · show lbRows st players = _
    induction players with
    | nil => rfl
    | cons p rest ih =>
      cases hid : p.id with
      | none => simp [lbRows, hid, List.filterMap_cons, ih]
      | some name =>
        by_cases hn : name = ""
        · simp [lbRows, hid, hn, List.filterMap_cons, ih]
        · simp [lbRows, hid, hn, List.filterMap_cons, ih]
  · intro name h
    simp [rowFor, h, default_player_state]
  · intro name
    rfl
  · intro name ps h
    simp [rowFor, h]

/-- Concrete instance of C7 (amended): an id-less entry is skipped, a
player with progress renders its stored fields, a player without progress
renders the defaults, and rows follow roster order. -/
theorem C7_witness :
    (leaderboard [{ id := some "B" }, { id := none }, { id := some "A" }]
        [("A", { mission_done := true, guess := some (guessOf "B" "m"),
                 points := 2, discovered_by_target := true })]).2
      = [{ display := "B", points := 0, mission_done := false,
           discovered_by_target := false, found_killer := false,
           guess_killer_display := none, guess_mission := none },
         { display := "A", points := 2, mission_done := true,
           discovered_by_target := true, found_killer := true,
           guess_killer_display := some "B", guess_mission := some "m" }] := by
  have h := C7_leaderboard_rows
      [{ id := some "B" }, { id := none }, { id := some "A" }]
      [("A", { mission_done := true, guess := some (guessOf "B" "m"),
               points := 2, discovered_by_target := true })]
  rw [h.2.1]
  decide

/-- Claim C10: `mission_done` and `submit_guess` use the trimmed effective
input verbatim as the progress-map key, with no normalization and no
resolution against the assignment table; in particular `"Maxence"` and
`"maxence"`, which normalize identically, create and mutate two distinct
entries. -/
theorem C10_verbatim_keys :
    (∀ (st : GameState) (pid_f disp_f : Option String),
        (mission_done st pid_f disp_f).1
          = (if pyTrim (pyOrStr pid_f (pyOrStr disp_f "")) = "" then st
             else match stateGet st (pyTrim (pyOrStr pid_f (pyOrStr disp_f ""))) with
               | some e => stateSet st (pyTrim (pyOrStr pid_f (pyOrStr disp_f "")))
                   { e with mission_done := true }
               | none => st ++ [(pyTrim (pyOrStr pid_f (pyOrStr disp_f "")),
                   { default_player_state with mission_done := true })]))
    ∧ (∀ (st : GameState) (f1 f2 f3 f4 f5 : Option String),
        (submit_guess st f1 f2 f3 f4 f5).1
          = (if pyTrim (pyOrStr f1 (pyOrStr f2 "")) = "" then st
             else if pyTrim (pyOrStr f3 (pyOrStr f4 "")) = "" then st
             else if pyTrim (pyOrStr f5 "") = "" then st
             else match stateGet st (pyTrim (pyOrStr f1 (pyOrStr f2 ""))) with
               | some e => stateSet st (pyTrim (pyOrStr f1 (pyOrStr f2 "")))
                   { e with guess := some (guessOf (pyTrim (pyOrStr f3 (pyOrStr f4 "")))
                       (pyTrim (pyOrStr f5 ""))) }
               | none => st ++ [(pyTrim (pyOrStr f1 (pyOrStr f2 "")),
                   { default_player_state with
                     guess := some (guessOf (pyTrim (pyOrStr f3 (pyOrStr f4 "")))
                       (pyTrim (pyOrStr f5 ""))) })]))
    ∧ (mission_done [] (some "Maxence") none).1
        = [("Maxence", { default_player_state with mission_done := true })]
    ∧ (submit_guess (mission_done [] (some "Maxence") none).1
          (some "maxence") none (some "X") none (some "Mx")).1
        = [("Maxence", { default_player_state with mission_done := true }),
           ("maxence", { default_player_state with guess := some (guessOf "X" "Mx") })]
    ∧ normalize "Maxence" = normalize "maxence"
    ∧ "Maxence" ≠ "maxence" := by
  refine ⟨?_, ?_, by decide, by decide, by decide, by decide⟩
  · intro st pid_f disp_f
    by_cases h : pyTrim (pyOrStr pid_f (pyOrStr disp_f "")) = ""
    · rw [if_pos h]
      simp only [mission_done, if_pos h]
    · rw [if_neg h, mission_done_state_eq st pid_f disp_f h]
  · intro st f1 f2 f3 f4 f5
    by_cases h1 : pyTrim (pyOrStr f1 (pyOrStr f2 "")) = ""
    · rw [if_pos h1]
      simp only [submit_guess, if_pos h1]
    · rw [if_neg h1]
      by_cases h2 : pyTrim (pyOrStr f3 (pyOrStr f4 "")) = ""
      · rw [if_pos h2]
        simp only [submit_guess, if_neg h1, if_pos h2]
      · rw [if_neg h2]
        by_cases h3 : pyTrim (pyOrStr f5 "") = ""
        · rw [if_pos h3]
          simp only [submit_guess, if_neg h1, if_neg h2, if_pos h3]
        · rw [if_neg h3, submit_guess_state_eq st f1 f2 f3 f4 f5 h1 h2 h3]

end KillerGame
